import Mathlib

/-!
Verification of the risk-managed position and stop-order lifecycle controller
of `ProfessionalDoubleMAStrategy` (src/Backtrader/backtest_engine.py), plus the
trade-tally callback of `AdvancedTrendFollowingStrategy`
(src/Backtrader_Plus/trend_strategy.py).

Prices and indicator values are embedded as rationals; share counts as
integers.  Python's `int(x)` on a nonnegative quotient is `Int.floor`; on a
negative quotient it truncates toward zero, i.e. `Int.ceil`.  Order submission
and cancellation are modelled by explicit action lists; submission failures
(the `try/except` blocks of the source) are modelled by boolean success flags.
-/

namespace Backtest

/-- Strategy parameters (the `params` tuple of `ProfessionalDoubleMAStrategy`,
restricted to the fields the controller logic reads). -/
structure Params where
  risk_pct : ℚ
  atr_stop_mult : ℚ
  max_pos_size : ℚ
  retain_pct : ℚ
  trail_trigger : ℚ
deriving DecidableEq

/-- The default parameter values of the source: risk_pct=0.02,
atr_stop_mult=2.0, max_pos_size=0.8, retain_pct=0.15, trail_trigger=0.005. -/
def defaultParams : Params :=
  ⟨2/100, 2, 8/10, 15/100, 5/1000⟩

/-- Python's `int()` applied to a rational: truncation toward zero. -/
def pytrunc (q : ℚ) : ℤ :=
  if q < 0 then ⌈q⌉ else ⌊q⌋

/-- `ProfessionalDoubleMAStrategy.calculate_risk_size`
(backtest_engine.py lines 131-169), as a function of the broker value
(`account_value`), the current close and the current ATR reading. -/
def calculate_risk_size (p : Params) (account_value close atr : ℚ) : ℤ :=
  if atr ≤ 0 ∨ close ≤ 0 then 0
  else
    let risk_money := account_value * p.risk_pct
    let per_share_risk := atr * p.atr_stop_mult
    if per_share_risk ≤ 0 then 0
    else
      let target_size := pytrunc (risk_money / per_share_risk)
      let max_shares0 := pytrunc (account_value * p.max_pos_size / close)
      let max_shares := if max_shares0 < 0 then 0 else max_shares0
      let size := min target_size max_shares
      if size < 0 then 0 else size

/-- An outstanding protective stop-sell order: its size and trigger price. -/
structure StopOrd where
  size : ℤ
  price : ℚ
deriving DecidableEq

/-- The controller's mutable state: broker position size plus the strategy's
instance variables `stop_order`, `last_stop_price`, `entry_price`,
`initial_stop`, `break_even_active`, `trade_count`, `win_count`. -/
structure St where
  pos_size : ℤ
  stop_order : Option StopOrd
  last_stop_price : ℚ
  entry_price : ℚ
  initial_stop : ℚ
  break_even_active : Bool
  trade_count : ℕ
  win_count : ℕ
deriving DecidableEq

/-- The freshly constructed strategy state (`__init__`, lines 72-83). -/
def initSt : St :=
  ⟨0, none, 0, 0, 0, false, 0, 0⟩

/-- Order requests emitted toward the execution gateway during one `next`. -/
inductive Action where
  | marketBuy (size : ℤ)
  | marketSell (size : ℤ)
  | stopSell (size : ℤ) (price : ℚ)
  | cancelStop
deriving DecidableEq

/-- The per-bar inputs `next` reads: current close, current low, current ATR,
the broker equity (`self.broker.get_value()`), and the two boolean signals
(`buy_signal`, `sell_signal`) computed from the indicator snapshot. -/
structure Bar where
  close : ℚ
  low : ℚ
  atr : ℚ
  equity : ℚ
  buy_signal : Bool
  sell_signal : Bool
deriving DecidableEq

/-- Success flags for the order submissions attempted inside one `next` call
(each corresponds to one `try/except` around a `self.sell(...)` call). -/
structure Flags where
  entry_stop_ok : Bool
  be_ok : Bool
  trail_ok : Bool
  exit_sell_ok : Bool
  exit_stop_ok : Bool
deriving DecidableEq

/-- All submissions succeed. -/
def allOk : Flags :=
  ⟨true, true, true, true, true⟩

/-- Entry branch of `next` (lines 211-230): on a buy signal while flat, size
the position; if the size is positive submit the market buy, then try to
submit the initial protective stop at `close - atr * atr_stop_mult`.  When the
stop submission raises, the source logs and continues: only the buy was sent
and none of `stop_order`, `last_stop_price`, `initial_stop`,
`break_even_active` are assigned. -/
def entryStep (p : Params) (s : St) (b : Bar) (ok : Bool) : St × List Action :=
  if b.buy_signal = true then
    let size := calculate_risk_size p b.equity b.close b.atr
    if 0 < size then
      let stop_price := b.close - b.atr * p.atr_stop_mult
      if ok then
        ({ s with stop_order := some ⟨size, stop_price⟩,
                  last_stop_price := stop_price,
                  initial_stop := stop_price,
                  break_even_active := false },
          [Action.marketBuy size, Action.stopSell size stop_price])
      else (s, [Action.marketBuy size])
    else (s, [])
  else (s, [])

/-- Break-even promotion, block A of the in-position logic (lines 236-260).
The guard `not self.stop_order or new_stop > self.last_stop_price` is
modelled verbatim.  On a failed resubmission the old order has already been
cancelled but every instance variable keeps its previous value. -/
def stepA (s : St) (b : Bar) (ok : Bool) : St × List Action :=
  if s.break_even_active = false ∧ s.entry_price ≠ 0 ∧ s.initial_stop ≠ 0 then
    let initial_risk := s.entry_price - s.initial_stop
    if 0 < initial_risk ∧ initial_risk * (6/10) < b.close - s.entry_price then
      let new_stop := s.entry_price * (1001/1000)
      if s.stop_order.isSome = false ∨ s.last_stop_price < new_stop then
        let cancels : List Action :=
          if s.stop_order.isSome = true then [Action.cancelStop] else []
        if ok then
          ({ s with stop_order := some ⟨s.pos_size, new_stop⟩,
                    last_stop_price := new_stop,
                    break_even_active := true },
            cancels ++ [Action.stopSell s.pos_size new_stop])
        else (s, cancels)
      else (s, [])
    else (s, [])
  else (s, [])

/-- Trailing stop update, block B of the in-position logic (lines 262-283).
`if dynamic_stop:` is Python float truthiness, i.e. `dynamic_stop ≠ 0`. -/
def stepB (p : Params) (s : St) (b : Bar) (ok : Bool) : St × List Action :=
  let dynamic_stop := b.close - b.atr * p.atr_stop_mult
  if dynamic_stop ≠ 0 then
    if 0 < s.pos_size ∧ s.stop_order.isSome = true then
      if s.last_stop_price * (1 + p.trail_trigger) < dynamic_stop then
        if s.last_stop_price < dynamic_stop then
          if ok then
            ({ s with stop_order := some ⟨s.pos_size, dynamic_stop⟩,
                      last_stop_price := dynamic_stop },
              [Action.cancelStop, Action.stopSell s.pos_size dynamic_stop])
          else (s, [Action.cancelStop])
        else (s, [])
      else (s, [])
    else (s, [])
  else (s, [])

/-- Dead-cross reduction, block C of the in-position logic (lines 285-311):
sell `current_pos - int(current_pos * retain_pct)` units, cancel the existing
stop, and when the retained size is positive submit a replacement stop of that
exact size at `max(last_stop_price, low - atr)`.  A failed market-sell
submission is caught and the remaining logic still runs. -/
def stepC (p : Params) (s : St) (b : Bar) (sellOk stopOk : Bool) :
    St × List Action :=
  if b.sell_signal = true then
    let current_pos := s.pos_size
    let retain_size := pytrunc ((current_pos : ℚ) * p.retain_pct)
    let sell_size := current_pos - retain_size
    if 0 < sell_size then
      let sellActs : List Action :=
        if sellOk then [Action.marketSell sell_size] else []
      let cancelActs : List Action :=
        if s.stop_order.isSome = true then [Action.cancelStop] else []
      if 0 < retain_size then
        let new_stop_price := max s.last_stop_price (b.low - b.atr)
        if stopOk then
          ({ s with stop_order := some ⟨retain_size, new_stop_price⟩,
                    last_stop_price := new_stop_price },
            sellActs ++ cancelActs ++
              [Action.stopSell retain_size new_stop_price])
        else (s, sellActs ++ cancelActs)
      else (s, sellActs ++ cancelActs)
    else (s, [])
  else (s, [])

/-- One full call of `ProfessionalDoubleMAStrategy.next` (lines 171-311),
after the warm-up guard and with the two signals supplied as inputs: the entry
branch when flat, otherwise break-even promotion, then trailing update, then
dead-cross reduction, in that order. -/
def next_step (p : Params) (s : St) (b : Bar) (f : Flags) :
    St × List Action :=
  if s.pos_size = 0 then entryStep p s b f.entry_stop_ok
  else
    let r1 := stepA s b f.be_ok
    let r2 := stepB p r1.1 b f.trail_ok
    let r3 := stepC p r2.1 b f.exit_sell_ok f.exit_stop_ok
    (r3.1, r1.2 ++ r2.2 ++ r3.2)

/-- A completed buy fill: the broker adds the executed size to the position
and `notify_order` (lines 96-98) records `entry_price` from the fill. -/
def fillBuy (s : St) (price : ℚ) (size : ℤ) : St :=
  { s with pos_size := s.pos_size + size, entry_price := price }

/-- A completed sell fill: the broker subtracts the executed size, then
`notify_order` (lines 99-115) increments `trade_count` — and `win_count` when
the executed price strictly exceeds the recorded `entry_price` — only when the
position size observed at notification time is zero.  When the completed order
is the stored protective stop, lines 123-126 clear `stop_order`. -/
def fillSell (s : St) (price : ℚ) (size : ℤ) (isStop : Bool) : St :=
  let pos' := s.pos_size - size
  let s1 := { s with pos_size := pos' }
  let s2 :=
    if pos' = 0 then
      { s1 with trade_count := s1.trade_count + 1,
                win_count :=
                  if s.entry_price < price then s1.win_count + 1
                  else s1.win_count }
    else s1
  if isStop then { s2 with stop_order := none } else s2

/-- A cancel/margin/reject notification for the stored protective stop
(lines 117-126): the reference is cleared, nothing else changes. -/
def stopCleared (s : St) : St :=
  { s with stop_order := none }

/-- Events interleaving bar evaluations with broker notifications. -/
inductive Ev where
  | bar (b : Bar) (f : Flags)
  | buyFill (price : ℚ) (size : ℤ)
  | sellFill (price : ℚ) (size : ℤ) (isStop : Bool)
  | stopGone
deriving DecidableEq

/-- One event applied to the controller state. -/
def stepEv (p : Params) (s : St) : Ev → St
  | Ev.bar b f => (next_step p s b f).1
  | Ev.buyFill price size => fillBuy s price size
  | Ev.sellFill price size isStop => fillSell s price size isStop
  | Ev.stopGone => stopCleared s

/-- The successive states reached from `s` along a list of events. -/
def runStates (p : Params) (s : St) : List Ev → List St
  | [] => []
  | e :: es => stepEv p s e :: runStates p (stepEv p s e) es

/-- A run in which, at the start of every bar evaluation, the position is open
and a protective stop-order reference is outstanding. -/
def okRun (p : Params) (s : St) : List Ev → Prop
  | [] => True
  | e :: es =>
      (∀ b f, e = Ev.bar b f → s.pos_size ≠ 0 ∧ s.stop_order.isSome = true) ∧
        okRun p (stepEv p s e) es

/-- The guard of the break-even block (lines 238-246) as a proposition. -/
def breakEvenGuard (s : St) (b : Bar) : Prop :=
  s.break_even_active = false ∧ s.entry_price ≠ 0 ∧ s.initial_stop ≠ 0 ∧
    0 < s.entry_price - s.initial_stop ∧
    (s.entry_price - s.initial_stop) * (6/10) < b.close - s.entry_price ∧
    (s.stop_order.isSome = false ∨
      s.last_stop_price < s.entry_price * (1001/1000))

/-- The trade-tally branch of `AdvancedTrendFollowingStrategy.notify_order`
(trend_strategy.py lines 70-81): state read by a completed sell. -/
structure TrendSt where
  entry_price : ℚ
  trade_count : ℕ
  win_count : ℕ
deriving DecidableEq

/-- A completed sell in the trend strategy: `profit_pct` is computed from the
recorded entry price, `win_count` increments when it is positive, and
`trade_count` increments on every completed sell. -/
def trend_notify_sell (s : TrendSt) (price : ℚ) : TrendSt :=
  let profit_pct := (price - s.entry_price) / s.entry_price * 100
  { s with
      win_count := if 0 < profit_pct then s.win_count + 1 else s.win_count,
      trade_count := s.trade_count + 1 }


theorem pytrunc_of_nonneg {q : ℚ} (h : 0 ≤ q) : pytrunc q = ⌊q⌋ := by
  simp [pytrunc, not_lt.mpr h]

theorem pytrunc_nonpos {q : ℚ} (h : q ≤ 0) : pytrunc q ≤ 0 := by
  unfold pytrunc
  split_ifs with h1
  · exact Int.ceil_le.mpr (by exact_mod_cast h)
  · exact Int.floor_nonpos h

/-- Claim C2 (confirmed): for every equity > 0, price > 0 and atr > 0 — with
the strategy's risk parameters, which are configured nonnegative with a
positive stop multiplier — the sizer returns
max(0, min(floor(equity*risk_pct/(atr*atr_stop_mult)),
floor(equity*max_pos_size/price))). -/
theorem calculate_risk_size_formula (p : Params) (equity close atr : ℚ)
    (he : 0 < equity) (hc : 0 < close) (ha : 0 < atr)
    (hm : 0 < p.atr_stop_mult) (hr : 0 ≤ p.risk_pct) (hx : 0 ≤ p.max_pos_size) :
    calculate_risk_size p equity close atr
      = max 0 (min ⌊equity * p.risk_pct / (atr * p.atr_stop_mult)⌋
          ⌊equity * p.max_pos_size / close⌋) := by
  have hper : 0 < atr * p.atr_stop_mult := mul_pos ha hm
  have ht0 : 0 ≤ equity * p.risk_pct / (atr * p.atr_stop_mult) :=
    div_nonneg (mul_nonneg he.le hr) hper.le
  have hc0 : 0 ≤ equity * p.max_pos_size / close :=
    div_nonneg (mul_nonneg he.le hx) hc.le
  have hf1 : (0:ℤ) ≤ ⌊equity * p.risk_pct / (atr * p.atr_stop_mult)⌋ :=
    Int.floor_nonneg.mpr ht0
  have hf2 : (0:ℤ) ≤ ⌊equity * p.max_pos_size / close⌋ :=
    Int.floor_nonneg.mpr hc0
  simp only [calculate_risk_size, pytrunc_of_nonneg ht0, pytrunc_of_nonneg hc0]
  rw [if_neg (by push_neg; exact ⟨ha, hc⟩)]
  rw [if_neg (not_le.mpr hper)]
  rw [if_neg (not_lt.mpr hf2)]
  rw [if_neg (not_lt.mpr (le_min hf1 hf2))]
  exact (max_eq_right (le_min hf1 hf2)).symm

/-- Claim C2 witness: at the default parameters, equity=100000, price=50,
atr=2 the sizer returns 500, as the scenario requires. -/
theorem calculate_risk_size_formula_witness :
    calculate_risk_size defaultParams 100000 50 2 = 500 := by
  rw [calculate_risk_size_formula defaultParams 100000 50 2 (by norm_num)
    (by norm_num) (by norm_num) (by norm_num [defaultParams])
    (by norm_num [defaultParams]) (by norm_num [defaultParams])]
  norm_num [defaultParams]

/-- Claim C8 (confirmed): whenever atr <= 0, price <= 0 or equity <= 0 (with
the configured nonnegative maximum-position fraction), the sizer returns 0,
and on such a bar the flat-position branch of next submits no order and leaves
the state unchanged.  The sizer is a total function, so no exception can
propagate. -/
theorem invalid_input_sizing (p : Params) (equity close atr : ℚ)
    (hx : 0 ≤ p.max_pos_size)
    (h : atr ≤ 0 ∨ close ≤ 0 ∨ equity ≤ 0) :
    calculate_risk_size p equity close atr = 0 ∧
      ∀ (s : St) (b : Bar) (f : Flags), s.pos_size = 0 →
        b.equity = equity → b.close = close → b.atr = atr →
        next_step p s b f = (s, []) := by
  have hz : calculate_risk_size p equity close atr = 0 := by
    by_cases h1 : atr ≤ 0 ∨ close ≤ 0
    · simp [calculate_risk_size, h1]
    · have he : equity ≤ 0 := by
        rcases h with h | h | h
        · exact absurd (Or.inl h) h1
        · exact absurd (Or.inr h) h1
        · exact h
      push_neg at h1
      have hcq : equity * p.max_pos_size / close ≤ 0 :=
        div_nonpos_of_nonpos_of_nonneg (mul_nonpos_of_nonpos_of_nonneg he hx)
          h1.2.le
      have hms : pytrunc (equity * p.max_pos_size / close) ≤ 0 :=
        pytrunc_nonpos hcq
      simp only [calculate_risk_size]
      rw [if_neg (by push_neg; exact h1)]
      split_ifs with h2 h3 h4 h5
      · rfl
      · rfl
      · have := min_le_right
          (pytrunc (equity * p.risk_pct / (atr * p.atr_stop_mult))) (0:ℤ)
        omega
      · rfl
      · have := min_le_right
          (pytrunc (equity * p.risk_pct / (atr * p.atr_stop_mult)))
          (pytrunc (equity * p.max_pos_size / close))
        omega
  refine ⟨hz, ?_⟩
  intro s b f hpos hbe hbc hba
  simp only [next_step, if_pos hpos, entryStep, hbe, hbc, hba, hz]
  cases hsig : b.buy_signal
  · simp
  · simp


theorem stepA_last_mono (s : St) (b : Bar) (ok : Bool)
    (hstop : s.stop_order.isSome = true) :
    s.last_stop_price ≤ (stepA s b ok).1.last_stop_price := by
  simp only [stepA]
  split_ifs with h1 h2 h3 h4 <;> try exact le_refl _
  all_goals
    rcases h3 with h3 | h3
    · rw [hstop] at h3; exact Bool.noConfusion h3
    · exact h3.le

theorem stepB_last_mono (p : Params) (s : St) (b : Bar) (ok : Bool) :
    s.last_stop_price ≤ (stepB p s b ok).1.last_stop_price := by
  simp only [stepB]
  split_ifs with h1 h2 h3 h4 h5 <;> first
    | exact le_refl _
    | exact h4.le

theorem stepC_last_mono (p : Params) (s : St) (b : Bar) (so ok : Bool) :
    s.last_stop_price ≤ (stepC p s b so ok).1.last_stop_price := by
  simp only [stepC]
  split_ifs <;> first
    | exact le_refl _
    | exact le_max_left _ _

theorem next_step_last_mono (p : Params) (s : St) (b : Bar) (f : Flags)
    (hpos : s.pos_size ≠ 0) (hstop : s.stop_order.isSome = true) :
    s.last_stop_price ≤ (next_step p s b f).1.last_stop_price := by
  simp only [next_step, if_neg hpos]
  calc s.last_stop_price
      ≤ (stepA s b f.be_ok).1.last_stop_price := stepA_last_mono s b _ hstop
    _ ≤ (stepB p (stepA s b f.be_ok).1 b f.trail_ok).1.last_stop_price :=
        stepB_last_mono p _ b _
    _ ≤ _ := stepC_last_mono p _ b _ _


theorem fillSell_last (s : St) (price : ℚ) (size : ℤ) (isStop : Bool) :
    (fillSell s price size isStop).last_stop_price = s.last_stop_price := by
  simp only [fillSell]
  split_ifs <;> rfl

theorem stepEv_last_mono (p : Params) (s : St) (e : Ev)
    (h : ∀ b f, e = Ev.bar b f → s.pos_size ≠ 0 ∧ s.stop_order.isSome = true) :
    s.last_stop_price ≤ (stepEv p s e).last_stop_price := by
  cases e with
  | bar b f =>
      obtain ⟨h1, h2⟩ := h b f rfl
      exact next_step_last_mono p s b f h1 h2
  | buyFill price size => exact le_refl _
  | sellFill price size isStop => exact (fillSell_last s price size isStop).ge
  | stopGone => exact le_refl _

/-- Claim C1 (corrected): along any run of bar evaluations and notifications
in which, at the start of every bar step, the position is open and a
protective stop-order reference is outstanding, the recorded stop price
last_stop_price is non-decreasing.  (The unrestricted claim is refuted by
ratchet_cex: after a cancel/reject clears the reference, a break-even
promotion may lower the recorded stop price.) -/
theorem accepted_stops_monotone (p : Params) (s : St) (es : List Ev)
    (h : okRun p s es) :
    List.Chain' (fun a b : St => a.last_stop_price ≤ b.last_stop_price)
      (s :: runStates p s es) := by
  induction es generalizing s with
  | nil => simp [runStates]
  | cons e es ih =>
      obtain ⟨hbar, hrest⟩ := h
      simp only [runStates]
      exact List.chain'_cons.mpr ⟨stepEv_last_mono p s e hbar, ih _ hrest⟩

/-- Claim C1 witness: a concrete one-bar run with an open position and an
outstanding stop satisfies the run condition, and the accepted stop prices
along it are non-decreasing. -/
theorem accepted_stops_monotone_witness :
    okRun defaultParams
      ⟨100, some ⟨100, 80⟩, 80, 100, 80, false, 0, 0⟩
      [Ev.bar ⟨110, 109, 1, 100000, false, false⟩ allOk] ∧
    List.Chain' (fun a b : St => a.last_stop_price ≤ b.last_stop_price)
      (⟨100, some ⟨100, 80⟩, 80, 100, 80, false, 0, 0⟩ ::
        runStates defaultParams ⟨100, some ⟨100, 80⟩, 80, 100, 80, false, 0, 0⟩
          [Ev.bar ⟨110, 109, 1, 100000, false, false⟩ allOk]) := by
  constructor
  · refine ⟨?_, trivial⟩
    intro b f h
    exact ⟨by norm_num, by simp⟩
  · exact accepted_stops_monotone defaultParams _ _
      ⟨fun b f h => ⟨by norm_num, by simp⟩, trivial⟩

/-- Claim C1 counterexample: a concrete reachable trace — entry at close 100
with ATR 10 (initial stop 80), buy fill, a trailing update to 108, a broker
cancel/reject clearing the stop reference, then a bar at 113 — on which the
break-even promotion is accepted at price 100.1 while the previously accepted
stop price was 108, so the sequence of accepted stop prices decreases while
the position stays open. -/
theorem ratchet_cex :
    runStates defaultParams initSt
      [Ev.bar ⟨100, 99, 10, 100000, true, false⟩ allOk,
       Ev.buyFill 100 100,
       Ev.bar ⟨110, 109, 1, 100000, false, false⟩ allOk,
       Ev.stopGone,
       Ev.bar ⟨113, 110, 7, 100000, false, false⟩ allOk]
    = [⟨0, some ⟨100, 80⟩, 80, 0, 80, false, 0, 0⟩,
       ⟨100, some ⟨100, 80⟩, 80, 100, 80, false, 0, 0⟩,
       ⟨100, some ⟨100, 108⟩, 108, 100, 80, false, 0, 0⟩,
       ⟨100, none, 108, 100, 80, false, 0, 0⟩,
       ⟨100, some ⟨100, 1001/10⟩, 1001/10, 100, 80, true, 0, 0⟩] ∧
    ¬ List.Chain' (fun a b : St => a.last_stop_price ≤ b.last_stop_price)
        (initSt :: runStates defaultParams initSt
          [Ev.bar ⟨100, 99, 10, 100000, true, false⟩ allOk,
           Ev.buyFill 100 100,
           Ev.bar ⟨110, 109, 1, 100000, false, false⟩ allOk,
           Ev.stopGone,
           Ev.bar ⟨113, 110, 7, 100000, false, false⟩ allOk]) := by
  have htrace :
      runStates defaultParams initSt
        [Ev.bar ⟨100, 99, 10, 100000, true, false⟩ allOk,
         Ev.buyFill 100 100,
         Ev.bar ⟨110, 109, 1, 100000, false, false⟩ allOk,
         Ev.stopGone,
         Ev.bar ⟨113, 110, 7, 100000, false, false⟩ allOk]
      = [⟨0, some ⟨100, 80⟩, 80, 0, 80, false, 0, 0⟩,
         ⟨100, some ⟨100, 80⟩, 80, 100, 80, false, 0, 0⟩,
         ⟨100, some ⟨100, 108⟩, 108, 100, 80, false, 0, 0⟩,
         ⟨100, none, 108, 100, 80, false, 0, 0⟩,
         ⟨100, some ⟨100, 1001/10⟩, 1001/10, 100, 80, true, 0, 0⟩] := by
    norm_num [runStates, stepEv, next_step, entryStep, stepA, stepB, stepC,
      fillBuy, fillSell, stopCleared, calculate_risk_size, pytrunc,
      defaultParams, allOk, initSt]
  refine ⟨htrace, ?_⟩
  rw [htrace]
  intro hch
  have := List.chain'_cons.mp hch
  have h2 := List.chain'_cons.mp this.2
  have h3 := List.chain'_cons.mp h2.2
  have h4 := List.chain'_cons.mp h3.2
  have h5 := List.chain'_cons.mp h4.2
  norm_num at h5


theorem fillSell_pos (s : St) (price : ℚ) (size : ℤ) (isStop : Bool) :
    (fillSell s price size isStop).pos_size = s.pos_size - size := by
  simp only [fillSell]
  split_ifs <;> rfl

theorem fillSell_stop_not (s : St) (price : ℚ) (size : ℤ) :
    (fillSell s price size false).stop_order = s.stop_order := by
  simp only [fillSell]
  split_ifs <;> simp_all

theorem fillSell_stop_hit (s : St) (price : ℚ) (size : ℤ) :
    (fillSell s price size true).stop_order = none := by
  simp only [fillSell]
  split_ifs <;> simp_all

theorem next_step_entry_ok (p : Params) (s : St) (b : Bar)
    (hflat : s.pos_size = 0) (hsig : b.buy_signal = true)
    (hsize : 0 < calculate_risk_size p b.equity b.close b.atr) :
    next_step p s b allOk
      = ({ s with
            stop_order := some ⟨calculate_risk_size p b.equity b.close b.atr,
              b.close - b.atr * p.atr_stop_mult⟩,
            last_stop_price := b.close - b.atr * p.atr_stop_mult,
            initial_stop := b.close - b.atr * p.atr_stop_mult,
            break_even_active := false },
          [Action.marketBuy (calculate_risk_size p b.equity b.close b.atr),
           Action.stopSell (calculate_risk_size p b.equity b.close b.atr)
             (b.close - b.atr * p.atr_stop_mult)]) := by
  simp only [next_step, if_pos hflat, entryStep, hsig, allOk]
  simp [hsize]

theorem next_step_entry_fail (p : Params) (s : St) (b : Bar) (f : Flags)
    (hflat : s.pos_size = 0) (hsig : b.buy_signal = true)
    (hsize : 0 < calculate_risk_size p b.equity b.close b.atr)
    (hko : f.entry_stop_ok = false) :
    next_step p s b f
      = (s, [Action.marketBuy (calculate_risk_size p b.equity b.close b.atr)]) := by
  simp only [next_step, if_pos hflat, entryStep, hsig, hko]
  simp [hsize]


theorem stepA_not_fire (s : St) (b : Bar) (ok : Bool)
    (h : ¬ breakEvenGuard s b) : stepA s b ok = (s, []) := by
  simp only [stepA]
  split_ifs with h1 h2 h3 <;> try rfl
  all_goals exact absurd ⟨h1.1, h1.2.1, h1.2.2, h2.1, h2.2, h3⟩ h

theorem stepA_fire (s : St) (b : Bar) (h : breakEvenGuard s b)
    (hstop : s.stop_order.isSome = true) :
    stepA s b true
      = ({ s with
            stop_order := some ⟨s.pos_size, s.entry_price * (1001/1000)⟩,
            last_stop_price := s.entry_price * (1001/1000),
            break_even_active := true },
          [Action.cancelStop,
           Action.stopSell s.pos_size (s.entry_price * (1001/1000))]) := by
  obtain ⟨g1, g2, g3, g4, g5, g6⟩ := h
  simp only [stepA]
  rw [if_pos ⟨g1, g2, g3⟩, if_pos ⟨g4, g5⟩, if_pos g6, if_pos hstop]
  simp

theorem stepA_fire_nostop (s : St) (b : Bar) (h : breakEvenGuard s b)
    (hstop : s.stop_order.isSome = false) :
    stepA s b true
      = ({ s with
            stop_order := some ⟨s.pos_size, s.entry_price * (1001/1000)⟩,
            last_stop_price := s.entry_price * (1001/1000),
            break_even_active := true },
          [Action.stopSell s.pos_size (s.entry_price * (1001/1000))]) := by
  obtain ⟨g1, g2, g3, g4, g5, g6⟩ := h
  simp only [stepA]
  rw [if_pos ⟨g1, g2, g3⟩, if_pos ⟨g4, g5⟩, if_pos g6]
  simp [hstop]

theorem stepB_no_stop (p : Params) (s : St) (b : Bar) (ok : Bool)
    (hstop : s.stop_order.isSome = false) : stepB p s b ok = (s, []) := by
  simp only [stepB]
  split_ifs with h1 h2 h3 h4 h5 <;> try rfl
  all_goals rw [hstop] at h2; exact Bool.noConfusion h2.2

theorem stepC_no_sell (p : Params) (s : St) (b : Bar) (so ok : Bool)
    (hsig : b.sell_signal = false) : stepC p s b so ok = (s, []) := by
  simp only [stepC, hsig]
  simp


theorem stepC_char (p : Params) (s : St) (b : Bar)
    (hpos : 0 < s.pos_size) (hr0 : 0 ≤ p.retain_pct) (hr1 : p.retain_pct < 1)
    (hsig : b.sell_signal = true) (hstop : s.stop_order.isSome = true) :
    0 < s.pos_size - ⌊(s.pos_size : ℚ) * p.retain_pct⌋ ∧
    stepC p s b true true =
      (if 0 < ⌊(s.pos_size : ℚ) * p.retain_pct⌋ then
        ({ s with
            stop_order := some ⟨⌊(s.pos_size : ℚ) * p.retain_pct⌋,
              max s.last_stop_price (b.low - b.atr)⟩,
            last_stop_price := max s.last_stop_price (b.low - b.atr) },
          [Action.marketSell (s.pos_size - ⌊(s.pos_size : ℚ) * p.retain_pct⌋),
           Action.cancelStop,
           Action.stopSell ⌊(s.pos_size : ℚ) * p.retain_pct⌋
             (max s.last_stop_price (b.low - b.atr))])
       else
        (s, [Action.marketSell (s.pos_size - ⌊(s.pos_size : ℚ) * p.retain_pct⌋),
             Action.cancelStop])) := by
  have hq0 : (0:ℚ) ≤ (s.pos_size : ℚ) * p.retain_pct :=
    mul_nonneg (by exact_mod_cast hpos.le) hr0
  have hpt : pytrunc ((s.pos_size : ℚ) * p.retain_pct)
      = ⌊(s.pos_size : ℚ) * p.retain_pct⌋ := pytrunc_of_nonneg hq0
  have hflt : ⌊(s.pos_size : ℚ) * p.retain_pct⌋ < s.pos_size := by
    rw [Int.floor_lt]
    exact mul_lt_of_lt_one_right (by exact_mod_cast hpos) hr1
  have hsell : 0 < s.pos_size - ⌊(s.pos_size : ℚ) * p.retain_pct⌋ := by omega
  refine ⟨hsell, ?_⟩
  simp only [stepC, hsig, hpt]
  rw [if_pos trivial, if_pos hsell]
  split_ifs with h
  · simp [hstop]
  · simp [hstop]


/-- Claim C3 (corrected): on the entry-signal bar the controller submits the
market buy and immediately the protective stop for the planned size at
signal-bar close minus atr times the stop multiplier (recorded as
initial_stop and last_stop_price); entry_price is recorded from the buy fill
only when the fill notification arrives, so the stop price is computed from
the signal-bar close, not from the fill price.  If the stop submission fails
the buy still stands and the state is left unchanged (no protective order).
(The claim's formula initial_stop = entry_price - atr*stop_multiplier is
refuted by entry_stop_cex.) -/
theorem entry_transition_spec (p : Params) (s : St) (b : Bar) (fillPrice : ℚ)
    (hflat : s.pos_size = 0) (hsig : b.buy_signal = true)
    (hsize : 0 < calculate_risk_size p b.equity b.close b.atr) :
    next_step p s b allOk
      = ({ s with
            stop_order := some ⟨calculate_risk_size p b.equity b.close b.atr,
              b.close - b.atr * p.atr_stop_mult⟩,
            last_stop_price := b.close - b.atr * p.atr_stop_mult,
            initial_stop := b.close - b.atr * p.atr_stop_mult,
            break_even_active := false },
          [Action.marketBuy (calculate_risk_size p b.equity b.close b.atr),
           Action.stopSell (calculate_risk_size p b.equity b.close b.atr)
             (b.close - b.atr * p.atr_stop_mult)]) ∧
    next_step p s b ⟨false, true, true, true, true⟩
      = (s, [Action.marketBuy (calculate_risk_size p b.equity b.close b.atr)]) ∧
    (fillBuy (next_step p s b allOk).1 fillPrice
        (calculate_risk_size p b.equity b.close b.atr)).entry_price = fillPrice := by
  refine ⟨next_step_entry_ok p s b hflat hsig hsize, ?_, rfl⟩
  exact next_step_entry_fail p s b _ hflat hsig hsize rfl

/-- Claim C3 witness: concrete entry at close 100, ATR 2, equity 100000:
size 500, stop at 96; with a failing stop submission only the buy is sent;
the later fill at 101 sets entry_price to 101. -/
theorem entry_transition_spec_witness :
    next_step defaultParams initSt ⟨100, 99, 2, 100000, true, false⟩ allOk
      = (⟨0, some ⟨500, 96⟩, 96, 0, 96, false, 0, 0⟩,
         [Action.marketBuy 500, Action.stopSell 500 96]) ∧
    next_step defaultParams initSt ⟨100, 99, 2, 100000, true, false⟩
        ⟨false, true, true, true, true⟩
      = (initSt, [Action.marketBuy 500]) ∧
    (fillBuy (next_step defaultParams initSt ⟨100, 99, 2, 100000, true, false⟩
        allOk).1 101 500).entry_price = 101 := by
  have hsize : calculate_risk_size defaultParams 100000 100 2 = 500 := by
    norm_num [calculate_risk_size, pytrunc, defaultParams]
  have h := entry_transition_spec defaultParams initSt
    ⟨100, 99, 2, 100000, true, false⟩ 101 rfl rfl (by rw [hsize]; norm_num)
  refine ⟨?_, ?_, ?_⟩
  · rw [h.1]
    simp only [hsize, initSt]
    norm_num [defaultParams]
  · rw [h.2.1]
    simp only [hsize]
  · simpa using h.2.2

/-- Claim C3 counterexample: entering at signal close 100 with ATR 2 and then
filling the buy at 101 leaves initial_stop = 96, which differs from
entry_price - atr*stop_multiplier = 97. -/
theorem entry_stop_cex :
    runStates defaultParams initSt
      [Ev.bar ⟨100, 99, 2, 100000, true, false⟩ allOk, Ev.buyFill 101 500]
    = [⟨0, some ⟨500, 96⟩, 96, 0, 96, false, 0, 0⟩,
       ⟨500, some ⟨500, 96⟩, 96, 101, 96, false, 0, 0⟩] ∧
    (⟨500, some ⟨500, 96⟩, 96, 101, 96, false, 0, 0⟩ : St).initial_stop
      ≠ (⟨500, some ⟨500, 96⟩, 96, 101, 96, false, 0, 0⟩ : St).entry_price
          - 2 * defaultParams.atr_stop_mult := by
  constructor
  · norm_num [runStates, stepEv, next_step, entryStep, fillBuy,
      calculate_risk_size, pytrunc, defaultParams, allOk, initSt]
  · norm_num [defaultParams]


/-- Claim C4 (corrected): while a stop-order reference is outstanding, the
break-even block fires exactly when promotion has not occurred, entry_price
and initial_stop are nonzero, the initial risk is positive, the unrealized
gain strictly exceeds 0.6 times the initial risk, and the new stop
entry_price*1.001 is strictly above the recorded stop price; it then replaces
the stop at entry_price*1.001 (cancel then resubmit) and latches the
promotion flag.  (When the reference has been cleared the strict-increase
requirement is waived, and the trigger is strict — both refuted points are in
break_even_cex.) -/
theorem break_even_promotion_spec (s : St) (b : Bar)
    (hstop : s.stop_order.isSome = true) :
    ((stepA s b true).1 ≠ s ↔ breakEvenGuard s b) ∧
    (breakEvenGuard s b →
      s.last_stop_price < s.entry_price * (1001/1000) ∧
      stepA s b true
        = ({ s with
              stop_order := some ⟨s.pos_size, s.entry_price * (1001/1000)⟩,
              last_stop_price := s.entry_price * (1001/1000),
              break_even_active := true },
            [Action.cancelStop,
             Action.stopSell s.pos_size (s.entry_price * (1001/1000))])) := by
  have hfire : breakEvenGuard s b →
      s.last_stop_price < s.entry_price * (1001/1000) ∧
      stepA s b true
        = ({ s with
              stop_order := some ⟨s.pos_size, s.entry_price * (1001/1000)⟩,
              last_stop_price := s.entry_price * (1001/1000),
              break_even_active := true },
            [Action.cancelStop,
             Action.stopSell s.pos_size (s.entry_price * (1001/1000))]) := by
    intro hg
    refine ⟨?_, stepA_fire s b hg hstop⟩
    rcases hg.2.2.2.2.2 with h | h
    · rw [hstop] at h; exact Bool.noConfusion h
    · exact h
  refine ⟨⟨?_, ?_⟩, hfire⟩
  · intro hne
    by_contra hng
    rw [stepA_not_fire s b true hng] at hne
    exact hne rfl
  · intro hg
    rw [(hfire hg).2]
    intro heq
    have hb := congrArg St.break_even_active heq
    simp only at hb
    rw [hg.1] at hb
    exact Bool.noConfusion hb

/-- Claim C4 witness: entry 100, initial stop 94, recorded stop 94, price
104: promotion fires and installs the stop at 100.1. -/
theorem break_even_promotion_spec_witness :
    ((stepA ⟨100, some ⟨100, 94⟩, 94, 100, 94, false, 0, 0⟩
        ⟨104, 103, 1, 100000, false, false⟩ true).1
      ≠ ⟨100, some ⟨100, 94⟩, 94, 100, 94, false, 0, 0⟩) ∧
    stepA ⟨100, some ⟨100, 94⟩, 94, 100, 94, false, 0, 0⟩
        ⟨104, 103, 1, 100000, false, false⟩ true
      = (⟨100, some ⟨100, 1001/10⟩, 1001/10, 100, 94, true, 0, 0⟩,
         [Action.cancelStop, Action.stopSell 100 (1001/10)]) := by
  have hg : breakEvenGuard ⟨100, some ⟨100, 94⟩, 94, 100, 94, false, 0, 0⟩
      ⟨104, 103, 1, 100000, false, false⟩ := by
    refine ⟨rfl, by norm_num, by norm_num, by norm_num, by norm_num, Or.inr ?_⟩
    norm_num
  have h := break_even_promotion_spec ⟨100, some ⟨100, 94⟩, 94, 100, 94, false, 0, 0⟩
    ⟨104, 103, 1, 100000, false, false⟩ rfl
  refine ⟨h.1.mpr hg, ?_⟩
  rw [(h.2 hg).2]
  norm_num

/-- Claim C4 counterexample: (a) with the stop-order reference cleared and a
recorded stop price of 101, the promotion at price 104 is still accepted at
100.1 < 101, contradicting the strictly-greater requirement; (b) at price
exactly 103.6 (entry 100, initial stop 94) the promotion does not fire, since
the code requires gain strictly greater than 0.6 times the initial risk,
contradicting the scenario's claim that it fires when price >= 103.6. -/
theorem break_even_cex :
    stepA ⟨100, none, 101, 100, 94, false, 0, 0⟩
        ⟨104, 103, 1, 100000, false, false⟩ true
      = (⟨100, some ⟨100, 1001/10⟩, 1001/10, 100, 94, true, 0, 0⟩,
         [Action.stopSell 100 (1001/10)]) ∧
    (1001/10 : ℚ) < 101 ∧
    stepA ⟨100, some ⟨100, 94⟩, 94, 100, 94, false, 0, 0⟩
        ⟨518/5, 103, 1, 100000, false, false⟩ true
      = (⟨100, some ⟨100, 94⟩, 94, 100, 94, false, 0, 0⟩, []) := by
  refine ⟨?_, by norm_num, ?_⟩
  · norm_num [stepA]
  · norm_num [stepA]


/-- Claim C5 (confirmed): on a dead-cross signal while holding S > 0 units
with a stop outstanding (retain fraction in [0,1)), the sell amount
S - floor(S*retain_pct) is positive, a market sell for it is submitted, the
existing stop is canceled, and when the retained size is positive a new stop
sized exactly floor(S*retain_pct) is submitted at
max(last_stop_price, low - atr). -/
theorem dead_cross_reduction_spec (p : Params) (s : St) (b : Bar)
    (hpos : 0 < s.pos_size) (hr0 : 0 ≤ p.retain_pct) (hr1 : p.retain_pct < 1)
    (hsig : b.sell_signal = true) (hstop : s.stop_order.isSome = true) :
    0 < s.pos_size - ⌊(s.pos_size : ℚ) * p.retain_pct⌋ ∧
    stepC p s b true true =
      (if 0 < ⌊(s.pos_size : ℚ) * p.retain_pct⌋ then
        ({ s with
            stop_order := some ⟨⌊(s.pos_size : ℚ) * p.retain_pct⌋,
              max s.last_stop_price (b.low - b.atr)⟩,
            last_stop_price := max s.last_stop_price (b.low - b.atr) },
          [Action.marketSell (s.pos_size - ⌊(s.pos_size : ℚ) * p.retain_pct⌋),
           Action.cancelStop,
           Action.stopSell ⌊(s.pos_size : ℚ) * p.retain_pct⌋
             (max s.last_stop_price (b.low - b.atr))])
       else
        (s, [Action.marketSell (s.pos_size - ⌊(s.pos_size : ℚ) * p.retain_pct⌋),
             Action.cancelStop])) :=
  stepC_char p s b hpos hr0 hr1 hsig hstop

/-- Claim C5 witness: S=1000 at the default retain fraction 0.15 sells 850,
cancels the old stop, and issues a new stop for exactly 150 units at
max(90, 94-2) = 92. -/
theorem dead_cross_reduction_spec_witness :
    (0 : ℤ) < 1000 - ⌊((1000 : ℤ) : ℚ) * defaultParams.retain_pct⌋ ∧
    stepC defaultParams ⟨1000, some ⟨1000, 90⟩, 90, 100, 90, false, 0, 0⟩
        ⟨95, 94, 2, 100000, false, true⟩ true true
      = (⟨1000, some ⟨150, 92⟩, 92, 100, 90, false, 0, 0⟩,
         [Action.marketSell 850, Action.cancelStop, Action.stopSell 150 92]) := by
  have h := dead_cross_reduction_spec defaultParams
    ⟨1000, some ⟨1000, 90⟩, 90, 100, 90, false, 0, 0⟩
    ⟨95, 94, 2, 100000, false, true⟩ (by norm_num)
    (by norm_num [defaultParams]) (by norm_num [defaultParams]) rfl rfl
  have hfl : ⌊((1000 : ℤ) : ℚ) * defaultParams.retain_pct⌋ = 150 := by
    norm_num [defaultParams]
  constructor
  · rw [hfl]; norm_num
  · rw [h.2]
    simp only [hfl]
    norm_num

/-- Claim C6 (confirmed): whenever the trailing block changes the recorded
stop price, the dynamic stop close - atr*atr_stop_mult was nonzero, the
position open, a stop outstanding, and the dynamic stop strictly above both
last_stop_price*(1+trail_trigger) and last_stop_price; the new recorded price
is the dynamic stop, and it exceeds the old one by strictly more than
trail_trigger*last_stop_price — so consecutive trailing replacements are
separated by more than the anti-churn threshold. -/
theorem trailing_update_spec (p : Params) (s : St) (b : Bar) (ok : Bool)
    (hch : (stepB p s b ok).1.last_stop_price ≠ s.last_stop_price) :
    (b.close - b.atr * p.atr_stop_mult ≠ 0 ∧ 0 < s.pos_size ∧
      s.stop_order.isSome = true ∧
      s.last_stop_price * (1 + p.trail_trigger)
        < b.close - b.atr * p.atr_stop_mult ∧
      s.last_stop_price < b.close - b.atr * p.atr_stop_mult) ∧
    (stepB p s b ok).1.last_stop_price = b.close - b.atr * p.atr_stop_mult ∧
    p.trail_trigger * s.last_stop_price
      < (stepB p s b ok).1.last_stop_price - s.last_stop_price := by
  simp only [stepB] at hch ⊢
  split_ifs at hch ⊢ with h1 h2 h3 h4 h5
  · refine ⟨⟨h1, h2.1, h2.2, h3, h4⟩, rfl, ?_⟩
    simp only
    nlinarith [h3]
  · exact absurd rfl hch
  · exact absurd rfl hch
  · exact absurd rfl hch
  · exact absurd rfl hch
  · exact absurd rfl hch

/-- Claim C6 witness: with recorded stop 80, price 110 and ATR 1 the trailing
update moves the stop to 108, a rise exceeding 0.005*80. -/
theorem trailing_update_spec_witness :
    ((stepB defaultParams ⟨100, some ⟨100, 80⟩, 80, 100, 80, false, 0, 0⟩
        ⟨110, 109, 1, 100000, false, false⟩ true).1.last_stop_price
      ≠ (⟨100, some ⟨100, 80⟩, 80, 100, 80, false, 0, 0⟩ : St).last_stop_price) ∧
    (stepB defaultParams ⟨100, some ⟨100, 80⟩, 80, 100, 80, false, 0, 0⟩
        ⟨110, 109, 1, 100000, false, false⟩ true).1.last_stop_price = 108 ∧
    defaultParams.trail_trigger * 80 < 108 - 80 := by
  have hch : (stepB defaultParams ⟨100, some ⟨100, 80⟩, 80, 100, 80, false, 0, 0⟩
      ⟨110, 109, 1, 100000, false, false⟩ true).1.last_stop_price
      ≠ (⟨100, some ⟨100, 80⟩, 80, 100, 80, false, 0, 0⟩ : St).last_stop_price := by
    norm_num [stepB, defaultParams]
  have h := trailing_update_spec defaultParams
    ⟨100, some ⟨100, 80⟩, 80, 100, 80, false, 0, 0⟩
    ⟨110, 109, 1, 100000, false, false⟩ true hch
  refine ⟨hch, ?_, by norm_num [defaultParams]⟩
  have h21 := h.2.1
  rw [h21]
  norm_num [defaultParams]


/-- Claim C7 (corrected): provided stop submissions succeed, each
size-changing event leaves the protective stop sized to the position by the
next step: (entry) after the buy fill the position equals the submitted
stop's size; (dead-cross reduction) after the market-sell fill the position
equals the retained size, which is the new stop's size, and when nothing is
retained the position is 0 and the cancel notification clears the reference;
(stop fill) a stop fill of matching size empties the position and clears the
reference.  (The unrestricted claim fails when the initial stop submission
fails: see size_sync_cex.) -/
theorem size_sync_spec (p : Params) :
    (∀ (s : St) (b : Bar) (fillPrice : ℚ),
      s.pos_size = 0 → b.buy_signal = true →
      0 < calculate_risk_size p b.equity b.close b.atr →
      (fillBuy (next_step p s b allOk).1 fillPrice
          (calculate_risk_size p b.equity b.close b.atr)).pos_size
        = calculate_risk_size p b.equity b.close b.atr ∧
      (fillBuy (next_step p s b allOk).1 fillPrice
          (calculate_risk_size p b.equity b.close b.atr)).stop_order
        = some ⟨calculate_risk_size p b.equity b.close b.atr,
            b.close - b.atr * p.atr_stop_mult⟩) ∧
    (∀ (s : St) (b : Bar) (fillPrice : ℚ),
      0 < s.pos_size → 0 ≤ p.retain_pct → p.retain_pct < 1 →
      b.sell_signal = true → s.stop_order.isSome = true →
      (0 < ⌊(s.pos_size : ℚ) * p.retain_pct⌋ →
        (fillSell (stepC p s b true true).1 fillPrice
            (s.pos_size - ⌊(s.pos_size : ℚ) * p.retain_pct⌋) false).pos_size
          = ⌊(s.pos_size : ℚ) * p.retain_pct⌋ ∧
        (fillSell (stepC p s b true true).1 fillPrice
            (s.pos_size - ⌊(s.pos_size : ℚ) * p.retain_pct⌋) false).stop_order
          = some ⟨⌊(s.pos_size : ℚ) * p.retain_pct⌋,
              max s.last_stop_price (b.low - b.atr)⟩) ∧
      (⌊(s.pos_size : ℚ) * p.retain_pct⌋ = 0 →
        (fillSell (stepC p s b true true).1 fillPrice
            (s.pos_size - ⌊(s.pos_size : ℚ) * p.retain_pct⌋) false).pos_size
          = 0 ∧
        (stopCleared (fillSell (stepC p s b true true).1 fillPrice
            (s.pos_size - ⌊(s.pos_size : ℚ) * p.retain_pct⌋) false)).stop_order
          = none)) ∧
    (∀ (s : St) (o : StopOrd), s.stop_order = some o → o.size = s.pos_size →
      (fillSell s o.price o.size true).pos_size = 0 ∧
      (fillSell s o.price o.size true).stop_order = none) := by
  refine ⟨?_, ?_, ?_⟩
  · intro s b fillPrice hflat hsig hsize
    rw [next_step_entry_ok p s b hflat hsig hsize]
    constructor
    · simp [fillBuy, hflat]
    · rfl
  · intro s b fillPrice hpos hr0 hr1 hsig hstop
    have h := stepC_char p s b hpos hr0 hr1 hsig hstop
    constructor
    · intro hret
      rw [h.2, if_pos hret]
      constructor
      · rw [fillSell_pos]
        simp only
        omega
      · rw [fillSell_stop_not]
    · intro hret
      rw [h.2, if_neg (by omega)]
      constructor
      · rw [fillSell_pos]
        simp only
        omega
      · rfl
  · intro s o hso hsz
    refine ⟨?_, fillSell_stop_hit s o.price o.size⟩
    rw [fillSell_pos]
    omega

/-- Claim C7 witness: concrete entry (fill 500 against a 500-share stop),
concrete reduction (1000 to 150 with a 150-share stop), and a concrete stop
fill emptying the position and the reference. -/
theorem size_sync_spec_witness :
    (fillBuy (next_step defaultParams initSt
        ⟨100, 99, 2, 100000, true, false⟩ allOk).1 101 500).pos_size = 500 ∧
    (fillSell (stepC defaultParams
        ⟨1000, some ⟨1000, 90⟩, 90, 100, 90, false, 0, 0⟩
        ⟨95, 94, 2, 100000, false, true⟩ true true).1 96 850 false).pos_size
      = 150 ∧
    (fillSell ⟨150, some ⟨150, 92⟩, 92, 100, 90, false, 0, 0⟩ 92 150
        true).pos_size = 0 ∧
    (fillSell ⟨150, some ⟨150, 92⟩, 92, 100, 90, false, 0, 0⟩ 92 150
        true).stop_order = none := by
  have h := size_sync_spec defaultParams
  have e1 : calculate_risk_size defaultParams
      (Bar.mk 100 99 2 100000 true false).equity
      (Bar.mk 100 99 2 100000 true false).close
      (Bar.mk 100 99 2 100000 true false).atr = 500 := by
    norm_num [calculate_risk_size, pytrunc, defaultParams]
  have h1 := h.1 initSt (Bar.mk 100 99 2 100000 true false) 101 rfl rfl
    (by rw [e1]; norm_num)
  rw [e1] at h1
  have e2 : ⌊(((St.mk 1000 (some (StopOrd.mk 1000 90)) 90 100 90 false 0
      0).pos_size : ℚ)) * defaultParams.retain_pct⌋ = 150 := by
    norm_num [defaultParams]
  have h2 := (h.2.1 (St.mk 1000 (some (StopOrd.mk 1000 90)) 90 100 90 false 0 0)
    (Bar.mk 95 94 2 100000 false true) 96 (by norm_num)
    (by norm_num [defaultParams]) (by norm_num [defaultParams]) rfl rfl).1
    (by rw [e2]; norm_num)
  rw [e2] at h2
  norm_num at h2
  have h3 := h.2.2 (St.mk 150 (some (StopOrd.mk 150 92)) 92 100 90 false 0 0)
    (StopOrd.mk 150 92) rfl rfl
  exact ⟨h1.1, h2.1, h3.1, h3.2⟩

/-- Claim C7 counterexample: when the initial stop submission fails (an
accepted, logged code path), the buy fill still changes the position to 500
while no protective stop exists, violating the unconditional size-sync
claim. -/
theorem size_sync_cex :
    runStates defaultParams initSt
      [Ev.bar ⟨100, 99, 2, 100000, true, false⟩ ⟨false, true, true, true, true⟩,
       Ev.buyFill 101 500]
    = [⟨0, none, 0, 0, 0, false, 0, 0⟩,
       ⟨500, none, 0, 101, 0, false, 0, 0⟩] ∧
    (500 : ℤ) ≠ 0 := by
  constructor
  · norm_num [runStates, stepEv, next_step, entryStep, fillBuy,
      calculate_risk_size, pytrunc, defaultParams, initSt]
  · norm_num

/-- Claim C9 (corrected): in the double-MA engine a completed sell increments
trade_count only when the position observed at notification time is 0 (a full
close); partial closes are not tallied; win_count increments exactly when
such a counted fill's price strictly exceeds the recorded entry price.  In
the trend strategy every completed sell increments trade_count, with a win
exactly when the relative profit over the recorded entry price is positive.
(The per-closing-fill claim is refuted on the engine by
ledger_partial_close_cex.) -/
theorem ledger_tally_spec :
    (∀ (s : St) (price : ℚ) (size : ℤ) (isStop : Bool),
      (fillSell s price size isStop).trade_count
        = (if s.pos_size - size = 0 then s.trade_count + 1
           else s.trade_count) ∧
      (fillSell s price size isStop).win_count
        = (if s.pos_size - size = 0 ∧ s.entry_price < price then s.win_count + 1
           else s.win_count)) ∧
    (∀ (t : TrendSt) (price : ℚ),
      (trend_notify_sell t price).trade_count = t.trade_count + 1 ∧
      (trend_notify_sell t price).win_count
        = (if 0 < (price - t.entry_price) / t.entry_price * 100
           then t.win_count + 1 else t.win_count)) := by
  constructor
  · intro s price size isStop
    constructor
    · simp only [fillSell]
      split_ifs <;> simp_all
    · simp only [fillSell]
      split_ifs <;> simp_all
  · intro t price
    exact ⟨rfl, rfl⟩

/-- Claim C9 counterexample: a partial close (sell 850 of 1000 at 120 above
the entry 100) leaves trade_count and win_count at 0 in the double-MA engine,
though the claim requires one Trade Record per closing fill. -/
theorem ledger_partial_close_cex :
    fillSell ⟨1000, some ⟨1000, 90⟩, 90, 100, 90, false, 0, 0⟩ 120 850 false
      = ⟨150, some ⟨1000, 90⟩, 90, 100, 90, false, 0, 0⟩ ∧
    (100 : ℚ) < 120 ∧ (150 : ℤ) ≠ 0 := by
  norm_num [fillSell]

/-- Claim C10 (confirmed): with an open position and an empty stop-order
reference, the trailing block submits nothing and returns the state
unchanged; if moreover the break-even guard does not hold and there is no
dead-cross signal, the whole bar step is a no-op with no orders; and any bar
step that ends with a stop-order reference present must have fired the
break-even promotion or seen a dead-cross signal. -/
theorem no_stop_frame_spec (p : Params) (s : St) (b : Bar) (f : Flags)
    (hpos : 0 < s.pos_size) (hstop : s.stop_order.isSome = false) :
    (∀ ok, stepB p s b ok = (s, [])) ∧
    (¬ breakEvenGuard s b → b.sell_signal = false →
      next_step p s b f = (s, [])) ∧
    ((next_step p s b f).1.stop_order.isSome = true →
      breakEvenGuard s b ∨ b.sell_signal = true) := by
  have hpos' : s.pos_size ≠ 0 := by omega
  have hframe : ∀ (_ : ¬ breakEvenGuard s b) (_ : b.sell_signal = false),
      next_step p s b f = (s, []) := by
    intro hng hsell
    simp only [next_step, if_neg hpos']
    rw [stepA_not_fire s b f.be_ok hng]
    simp only
    rw [stepB_no_stop p s b f.trail_ok hstop]
    simp only
    rw [stepC_no_sell p s b f.exit_sell_ok f.exit_stop_ok hsell]
    simp
  refine ⟨fun ok => stepB_no_stop p s b ok hstop, hframe, ?_⟩
  intro hsome
  by_contra hcon
  push_neg at hcon
  have hsell' : b.sell_signal = false := by
    cases hb : b.sell_signal
    · rfl
    · exact absurd hb hcon.2
  rw [hframe hcon.1 hsell'] at hsome
  simp only at hsome
  rw [hstop] at hsome
  exact Bool.noConfusion hsome

/-- Claim C10 witness: a concrete open position with cleared reference,
promotion already latched and no sell signal: the trailing block and the
whole bar step leave the state unchanged and submit nothing. -/
theorem no_stop_frame_spec_witness :
    stepB defaultParams ⟨100, none, 108, 100, 80, true, 0, 0⟩
        ⟨113, 110, 7, 100000, false, false⟩ true
      = (⟨100, none, 108, 100, 80, true, 0, 0⟩, []) ∧
    next_step defaultParams ⟨100, none, 108, 100, 80, true, 0, 0⟩
        ⟨113, 110, 7, 100000, false, false⟩ allOk
      = (⟨100, none, 108, 100, 80, true, 0, 0⟩, []) := by
  have h := no_stop_frame_spec defaultParams
    ⟨100, none, 108, 100, 80, true, 0, 0⟩
    ⟨113, 110, 7, 100000, false, false⟩ allOk (by norm_num) rfl
  exact ⟨h.1 true, h.2.1 (fun hg => Bool.noConfusion hg.1) rfl⟩

/-- Claim C8 witness: an ATR of exactly 0 on a bar with valid price and
equity yields size 0, and the flat-position step submits no order. -/
theorem invalid_input_sizing_witness :
    calculate_risk_size defaultParams 100000 50 0 = 0 ∧
    next_step defaultParams initSt ⟨50, 49, 0, 100000, true, false⟩ allOk
      = (initSt, []) := by
  have h := invalid_input_sizing defaultParams 100000 50 0
    (by norm_num [defaultParams]) (Or.inl (le_refl 0))
  exact ⟨h.1, h.2 initSt ⟨50, 49, 0, 100000, true, false⟩ allOk rfl rfl rfl rfl⟩

end Backtest
